import Mathlib

/-!
Shallow embedding of the core of the `hardware_measure` repository:
the PDH collector (pattern expansion, counter attachment, sampling,
instance-label extraction, keyword filtering), the engine-utilization
aggregator `summarize_engine_util`, the `RunningAverage` accumulator,
and the two CPU-pattern NPU-usage estimators
(`npu_monitor.NPUUsageEstimator.estimate_npu_usage` and
`ai_activity_detector.NPUUsageEstimator.estimate_npu_offload`).

Machine floats are modelled as exact rationals plus an explicit NaN
constructor; Python dicts become association lists in insertion order.
-/

/-- A Python float value: either NaN or an exact numeric value (ℚ). -/
inductive PyFloat where
  | nan : PyFloat
  | val : ℚ → PyFloat
deriving DecidableEq

/-- Characters of a string, lowercased as Python `str.lower` does for ASCII. -/
def lowerChars (s : String) : List Char :=
  s.data.map Char.toLower

/-- `leadMatch pat l` is true when `pat` is an initial segment of `l`. -/
def leadMatch : List Char → List Char → Bool
  | [], _ => true
  | _ :: _, [] => false
  | a :: as, b :: bs => a = b && leadMatch as bs

/-- `subSearch pat l`: does `pat` occur contiguously inside `l`?  This is
Python's `pat in l` on strings. -/
def subSearch (pat : List Char) : List Char → Bool
  | [] => pat.isEmpty
  | c :: rest => leadMatch pat (c :: rest) || subSearch pat rest

/-- Python `tag.lower() in name.lower()`: case-insensitive substring test. -/
def containsCI (name tag : String) : Bool :=
  subSearch (lowerChars tag) (lowerChars name)

/-! ## RunningAverage (hardware_measure.py lines 29-44) -/

/-- State of `RunningAverage`: `_total` and `_count`. -/
structure RunningAverage where
  total : ℚ
  count : ℕ
deriving DecidableEq

/-- `RunningAverage.__init__`: total 0.0, count 0. -/
def RunningAverage.init : RunningAverage := ⟨0, 0⟩

/-- `RunningAverage.add`: ignores `None`, otherwise accumulates. -/
def RunningAverage.add (st : RunningAverage) (v : Option ℚ) : RunningAverage :=
  match v with
  | none => st
  | some x => ⟨st.total + x, st.count + 1⟩

/-- `RunningAverage.has_samples`. -/
def RunningAverage.has_samples (st : RunningAverage) : Bool :=
  st.count > 0

/-- `RunningAverage.average`: `total / count if count else 0.0`. -/
def RunningAverage.average (st : RunningAverage) : ℚ :=
  if st.count = 0 then 0 else st.total / (st.count : ℚ)

/-- Feeding a list of numeric samples into a `RunningAverage`, in order. -/
def RunningAverage.addAll (st : RunningAverage) (vs : List ℚ) : RunningAverage :=
  vs.foldl (fun s v => s.add (some v)) st

/-! ## Aggregator: summarize_engine_util (hardware_measure.py lines 189-229) -/

/-- The validity filter inside `summarize_engine_util`: keep entries whose
value is a number that is neither NaN nor negative. -/
def validFiltered (data : List (String × PyFloat)) : List (String × ℚ) :=
  data.filterMap fun nv =>
    match nv.2 with
    | PyFloat.nan => none
    | PyFloat.val q => if q < 0 then none else some (nv.1, q)

/-- Stable insertion (descending by value): the new element goes after every
element whose value is at least as large, exactly as Python's stable
`sorted(..., reverse=True)` orders ties by original position. -/
def insertDescBy (x : String × ℚ) : List (String × ℚ) → List (String × ℚ)
  | [] => [x]
  | y :: ys => if x.2 ≤ y.2 then y :: insertDescBy x ys else x :: y :: ys

/-- Stable descending sort by value (Python
`sorted(items, key=value, reverse=True)`). -/
def sortDescBy (l : List (String × ℚ)) : List (String × ℚ) :=
  l.foldl (fun acc x => insertDescBy x acc) []

/-- `sorted(filtered.items(), ..., reverse=True)[:5]`. -/
def topFive (l : List (String × ℚ)) : List (String × ℚ) :=
  (sortDescBy l).take 5

/-- Python `max` over a list of values; the `[]` case is the guarded
`... if filtered else 0.0` fallback of line 224. -/
def pyMax : List ℚ → ℚ
  | [] => 0
  | x :: xs => xs.foldl max x

/-- `sum(val for _, val in top) / len(top) if top else 0.0` (line 227). -/
def meanOfTop (top : List (String × ℚ)) : ℚ :=
  if top.isEmpty then 0 else (top.map (fun p => p.2)).sum / (top.length : ℚ)

/-- The policy guard of line 222: some include keyword, lowercased, is
exactly `compute` or `engtype_compute`. -/
def computeCond (includeNames : List String) : Bool :=
  includeNames.any fun n =>
    lowerChars n = "compute".data || lowerChars n = "engtype_compute".data

/-- `UtilityFunctions.summarize_engine_util`. -/
def summarize_engine_util (data : List (String × PyFloat)) (includeNames : List String) :
    ℚ × List (String × ℚ) :=
  if data.isEmpty then (0, [])
  else if (validFiltered data).isEmpty then (0, [])
  else
    (if computeCond includeNames then
       if (validFiltered data).isEmpty then 0
       else pyMax ((validFiltered data).map (fun p => p.2))
     else meanOfTop (topFive (validFiltered data)),
     topFive (validFiltered data))

/-- The clamp of `HardwareMonitor.get_gpu_usage` (lines 371-372). -/
def clampPct (v : ℚ) : ℚ := max 0 (min 100 v)

/-- `HardwareMonitor.get_gpu_usage` (lines 349-378), parametrized by the GPU
collector availability flag and the map the collector returned. -/
def get_gpu_usage (gpuAvailable : Bool) (gpuData : List (String × PyFloat)) :
    ℚ × List (String × ℚ) :=
  if !gpuAvailable then (0, [])
  else if gpuData.isEmpty then (0, [])
  else
    let r := summarize_engine_util gpuData ["Compute"]
    (clampPct r.1, r.2.map (fun p => (p.1, clampPct p.2)))

/-! ## PDHCollector._filter_data (hardware_measure.py lines 105-134) -/

/-- `PDHCollector._filter_data`, parametrized by the collector's
`include_names` and `exclude_contains` lists.  An entry survives when: the
include list is empty or some include keyword occurs (case-insensitively)
in its label; no exclude keyword occurs in its label (when the exclude list
is non-empty); and its value is numeric, not NaN, and non-negative. -/
def filter_data (includeNames excludeContains : List String)
    (data : List (String × PyFloat)) : List (String × ℚ) :=
  data.filterMap fun nv =>
    if !includeNames.isEmpty && !(includeNames.any fun tag => containsCI nv.1 tag) then
      none
    else if !excludeContains.isEmpty && (excludeContains.any fun tag => containsCI nv.1 tag) then
      none
    else
      match nv.2 with
      | PyFloat.nan => none
      | PyFloat.val q => if q < 0 then none else some (nv.1, q)

/-- Re-inject filtered numeric data into the float-valued map type, as when
`collect()`'s filtered dict is later fed to `summarize_engine_util`. -/
def liftVals (l : List (String × ℚ)) : List (String × PyFloat) :=
  l.map fun p => (p.1, PyFloat.val p.2)

/-! ## Instance-label extraction (hardware_measure.py line 96,
npu_monitor.py line 188, enhanced_npu_monitor.py line 651) -/

/-- Python `s.find(c)`: index of the first occurrence, `-1` if absent. -/
def pyStrFind (s : List Char) (c : Char) : Int :=
  if c ∈ s then (s.findIdx (fun x => x == c) : Int) else -1

/-- Clamp one Python slice bound to `[0, len]` (negative indices count from
the end, as Python does). -/
def pySliceBound (len : ℕ) (i : Int) : ℕ :=
  if i < 0 then len - (-i).toNat else min i.toNat len

/-- Python `s[a:b]` for character lists: characters at clamped positions
`a' ≤ k < b'`, empty when `a' ≥ b'`. -/
def pySlice (s : List Char) (a b : Int) : List Char :=
  (s.take (pySliceBound s.length b)).drop (pySliceBound s.length a)

/-- `p[p.find('(')+1:p.find(')')] if '(' in p and ')' in p else p`:
the instance label of a counter path. -/
def instLabel (p : List Char) : List Char :=
  if '(' ∈ p ∧ ')' ∈ p then
    pySlice p (pyStrFind p '(' + 1) (pyStrFind p ')')
  else p

/-! ## PDHCollector build & collect (hardware_measure.py lines 46-103) -/

/-- One call into the PDH API, recorded so that theorems can speak about
which operations a code path performs. -/
inductive PdhCall where
  | expandPath : PdhCall
  | openQuery : PdhCall
  | addCounter : String → PdhCall
  | collectData : PdhCall
  | getValue : String → PdhCall
deriving DecidableEq

/-- Outcome environment for `_try_build`: whether pywin32 imported, what
`ExpandCounterPath` yields (`none` models a raised exception), whether
`OpenQuery` succeeds, which `AddCounter` calls succeed, and whether the
priming `CollectQueryData` succeeds. -/
structure PdhBuildEnv where
  hasPdh : Bool
  expandResult : Option (List String)
  openQueryOk : Bool
  addCounterOk : String → Bool
  collectDataOk : Bool

/-- Collector state after `__init__`/`_try_build`: the `_available` flag and
the list of successfully attached counter paths. -/
structure PdhState where
  available : Bool
  counters : List String

/-- `PDHCollector._try_build` (lines 58-79), returning the resulting state
and the trace of PDH API calls it performed. -/
def pdhTryBuild (env : PdhBuildEnv) : PdhState × List PdhCall :=
  if !env.hasPdh then (⟨false, []⟩, [])
  else
    match env.expandResult with
    | none => (⟨false, []⟩, [PdhCall.expandPath])
    | some paths =>
      if paths.isEmpty then (⟨false, []⟩, [PdhCall.expandPath])
      else if !env.openQueryOk then (⟨false, []⟩, [PdhCall.expandPath, PdhCall.openQuery])
      else
        let counters := paths.filter env.addCounterOk
        let trace := PdhCall.expandPath :: PdhCall.openQuery :: paths.map PdhCall.addCounter
        if counters.isEmpty then (⟨false, counters⟩, trace)
        else if env.collectDataOk then (⟨true, counters⟩, trace ++ [PdhCall.collectData])
        else (⟨false, counters⟩, trace ++ [PdhCall.collectData])

/-- Environment for one `collect()` call: whether `CollectQueryData`
succeeds, and for each attached path either a formatted value or `none`
(a raised exception, skipped per-counter). -/
structure PdhSampleEnv where
  collectDataOk : Bool
  readValue : String → Option PyFloat

/-- Python dict insertion: update the value in place when the key exists,
otherwise append. -/
def dictInsert (k : String) (v : PyFloat) :
    List (String × PyFloat) → List (String × PyFloat)
  | [] => [(k, v)]
  | (k', v') :: rest =>
    if k' = k then (k, v) :: rest else (k', v') :: dictInsert k v rest

/-- `PDHCollector.collect` (lines 84-103): nothing at all happens when the
collector is unavailable; otherwise two collections bracket a settle delay,
each counter is read (failures skipped), instance labels are extracted, and
the raw map passes through `_filter_data`.  Also returns the trace of PDH
API calls performed. -/
def pdhCollect (st : PdhState) (env : PdhSampleEnv)
    (includeNames excludeContains : List String) :
    List (String × ℚ) × List PdhCall :=
  if !st.available then ([], [])
  else if !env.collectDataOk then ([], [PdhCall.collectData])
  else
    let raw := st.counters.foldl (fun acc p =>
      match env.readValue p with
      | none => acc
      | some v => dictInsert (String.mk (instLabel p.data)) v acc) []
    (filter_data includeNames excludeContains raw,
      PdhCall.collectData :: st.counters.map PdhCall.getValue)

/-! ## NPU usage estimator (npu_monitor.py lines 264-311) -/

/-- Mean of a list (`sum(l)/len(l)`; division by zero cannot occur at the
call sites, and in ℚ it would yield 0). -/
def listMean (l : List ℚ) : ℚ := l.sum / (l.length : ℚ)

/-- State of `npu_monitor.NPUUsageEstimator`: the three bounded deques. -/
structure NPUUsageEstimator where
  cpu_baseline : List ℚ
  cpu_during_ai : List ℚ
  ai_process_count : List ℚ

/-- The dict returned by `estimate_npu_usage` in the sufficient-data case. -/
structure NpuEstimate where
  npu_usage_estimate : ℚ
  confidence : ℚ
  cpu_reduction_ratio : ℚ
  baseline_cpu : ℚ
  ai_cpu : ℚ
  avg_ai_processes : ℚ
deriving DecidableEq

/-- The CPU-reduction ratio of lines 294: `max(0, (baseline-ai)/baseline)`. -/
def cpuReductionOf (st : NPUUsageEstimator) : ℚ :=
  max 0 ((listMean st.cpu_baseline - listMean st.cpu_during_ai) / listMean st.cpu_baseline)

/-- `NPUUsageEstimator.estimate_npu_usage` (npu_monitor.py lines 281-311).
`none` models the `return None` paths. -/
def estimate_npu_usage (st : NPUUsageEstimator) : Option NpuEstimate :=
  if st.cpu_baseline.length < 10 ∨ st.cpu_during_ai.length < 5 then none
  else
    let baseline_avg := listMean st.cpu_baseline
    let ai_avg := listMean st.cpu_during_ai
    let avg_ai := listMean st.ai_process_count
    if baseline_avg ≤ 0 then none
    else
      let r := cpuReductionOf st
      if 0.15 < r ∧ 0 < avg_ai then
        some ⟨min 100 (r * 150), min 100 (r * 200), r * 100, baseline_avg, ai_avg, avg_ai⟩
      else
        some ⟨0, 0, r * 100, baseline_avg, ai_avg, avg_ai⟩

/-! ## NPU offload estimator (ai_activity_detector.py lines 180-221) -/

/-- State of `ai_activity_detector.NPUUsageEstimator`. -/
structure OffloadEstimator where
  cpu_baseline : List ℚ
  cpu_during_ai : List ℚ

/-- The dict returned by `estimate_npu_offload` in the sufficient-data case. -/
structure OffloadEstimate where
  npu_usage_estimate : ℚ
  cpu_reduction_ratio : ℚ
  baseline_cpu : ℚ
  ai_cpu : ℚ
deriving DecidableEq

/-- `NPUUsageEstimator.estimate_npu_offload` (ai_activity_detector.py
lines 195-221). -/
def estimate_npu_offload (st : OffloadEstimator) : Option OffloadEstimate :=
  if st.cpu_baseline.length < 10 ∨ st.cpu_during_ai.length < 5 then none
  else
    let baseline_avg := listMean st.cpu_baseline
    let ai_avg := listMean st.cpu_during_ai
    if 0 < baseline_avg then
      let r := max 0 ((baseline_avg - ai_avg) / baseline_avg)
      let est := if 0.2 < r then min 100 (r * 100) else 0
      some ⟨est, r, baseline_avg, ai_avg⟩
    else none

/-! ## Helper lemmas -/

/-- A Boolean rendering of "the value is NaN or negative" (the entries
`summarize_engine_util` and `_filter_data` drop). -/
def isInvalidVal : PyFloat → Bool
  | PyFloat.nan => true
  | PyFloat.val q => q < 0

lemma mem_insertDescBy {y x : String × ℚ} {l : List (String × ℚ)}
    (h : y ∈ insertDescBy x l) : y = x ∨ y ∈ l := by
  induction l with
  | nil => simpa [insertDescBy] using h
  | cons z zs ih =>
    by_cases hle : x.2 ≤ z.2
    · simp only [insertDescBy, if_pos hle, List.mem_cons] at h
      rcases h with h | h
      · exact Or.inr (by simp [h])
      · rcases ih h with h' | h'
        · exact Or.inl h'
        · exact Or.inr (List.mem_cons_of_mem _ h')
    · simp only [insertDescBy, if_neg hle, List.mem_cons] at h
      rcases h with h | h | h
      · exact Or.inl h
      · exact Or.inr (by simp [h])
      · exact Or.inr (List.mem_cons_of_mem _ h)

lemma mem_sortDescBy_aux {y : String × ℚ} :
    ∀ (l acc : List (String × ℚ)),
      y ∈ l.foldl (fun acc x => insertDescBy x acc) acc → y ∈ acc ∨ y ∈ l := by
  intro l
  induction l with
  | nil => intro acc h; exact Or.inl h
  | cons z zs ih =>
    intro acc h
    rcases ih (insertDescBy z acc) h with h' | h'
    · rcases mem_insertDescBy h' with h'' | h''
      · exact Or.inr (by simp [h''])
      · exact Or.inl h''
    · exact Or.inr (List.mem_cons_of_mem _ h')

lemma mem_sortDescBy {y : String × ℚ} {l : List (String × ℚ)}
    (h : y ∈ sortDescBy l) : y ∈ l := by
  rcases mem_sortDescBy_aux l [] h with h' | h'
  · simp at h'
  · exact h'

lemma mem_topFive {y : String × ℚ} {l : List (String × ℚ)}
    (h : y ∈ topFive l) : y ∈ l :=
  mem_sortDescBy (List.mem_of_mem_take h)

lemma validFiltered_nonneg {p : String × ℚ} {data : List (String × PyFloat)}
    (h : p ∈ validFiltered data) : 0 ≤ p.2 := by
  simp only [validFiltered, List.mem_filterMap] at h
  rcases h with ⟨nv, _, hnv⟩
  rcases nv with ⟨n, v⟩
  cases v with
  | nan => simp at hnv
  | val q =>
    by_cases hq : q < 0
    · simp [hq] at hnv
    · simp only [if_neg hq] at hnv
      cases hnv
      exact le_of_not_lt hq

lemma foldl_max_ge_init (l : List ℚ) : ∀ a : ℚ, a ≤ l.foldl max a := by
  induction l with
  | nil => intro a; exact le_refl a
  | cons x xs ih =>
    intro a
    exact le_trans (le_max_left a x) (ih (max a x))

lemma pyMax_nonneg {l : List ℚ} (h : ∀ x ∈ l, 0 ≤ x) : 0 ≤ pyMax l := by
  cases l with
  | nil => simp [pyMax]
  | cons x xs =>
    exact le_trans (h x (by simp)) (foldl_max_ge_init xs x)

lemma meanOfTop_nonneg {top : List (String × ℚ)} (h : ∀ p ∈ top, 0 ≤ p.2) :
    0 ≤ meanOfTop top := by
  unfold meanOfTop
  by_cases he : top.isEmpty
  · simp [he]
  · simp only [he, if_false, Bool.false_eq_true]
    apply div_nonneg
    · apply List.sum_nonneg
      intro x hx
      rcases List.mem_map.mp hx with ⟨p, hp, rfl⟩
      exact h p hp
    · positivity

lemma validFiltered_eq_nil {data : List (String × PyFloat)}
    (h : ∀ p ∈ data, isInvalidVal p.2 = true) : validFiltered data = [] := by
  apply List.filterMap_eq_nil_iff.mpr
  intro nv hnv
  have := h nv hnv
  cases hv : nv.2 with
  | nan => simp [hv]
  | val q =>
    rw [hv] at this
    simp only [isInvalidVal] at this
    simp [hv, of_decide_eq_true this]

lemma addAll_spec (vs : List ℚ) :
    ∀ st : RunningAverage,
      st.addAll vs = ⟨st.total + vs.sum, st.count + vs.length⟩ := by
  induction vs with
  | nil => intro st; simp [RunningAverage.addAll]
  | cons v vt ih =>
    intro st
    show (RunningAverage.addAll ⟨st.total + v, st.count + 1⟩ vt) = _
    rw [ih]
    simp [List.sum_cons]
    constructor
    · ring
    · omega

/-! ## Claim theorems -/

/-- C6: a fresh `RunningAverage` has average 0; `add(None)` is the identity
on the state; `add(v)` adds `v` to the total and 1 to the count; and after
adding any non-empty sequence of numeric values the average equals their
arithmetic mean. -/
theorem runningAverage_spec :
    RunningAverage.init.average = 0 ∧
    (∀ st : RunningAverage, st.add none = st) ∧
    (∀ (st : RunningAverage) (v : ℚ),
      (st.add (some v)).total = st.total + v ∧ (st.add (some v)).count = st.count + 1) ∧
    (∀ vs : List ℚ, vs ≠ [] →
      (RunningAverage.init.addAll vs).average = vs.sum / (vs.length : ℚ)) := by
  refine ⟨rfl, fun st => rfl, fun st v => ⟨rfl, rfl⟩, fun vs hvs => ?_⟩
  rw [addAll_spec]
  simp only [RunningAverage.init, RunningAverage.average, zero_add]
  rw [if_neg (by simpa using List.length_pos.mpr hvs |>.ne')]

/-- C6 witness: the mean clause of `runningAverage_spec` applied to the
concrete sample list `[1, 2, 3]`. -/
theorem runningAverage_spec_witness :
    ([1, 2, 3] : List ℚ) ≠ [] ∧
    (RunningAverage.init.addAll [1, 2, 3]).average
      = ([1, 2, 3] : List ℚ).sum / ((([1, 2, 3] : List ℚ).length : ℕ) : ℚ) :=
  ⟨by simp, runningAverage_spec.2.2.2 [1, 2, 3] (by simp)⟩

/-- C7: `summarize_engine_util` returns exactly `(0.0, [])` on the empty
map and on every map whose values are all NaN or negative. -/
theorem summarize_invalid_only :
    (∀ incl : List String, summarize_engine_util [] incl = (0, [])) ∧
    ∀ (data : List (String × PyFloat)) (incl : List String),
      (∀ p ∈ data, isInvalidVal p.2 = true) →
      summarize_engine_util data incl = (0, []) := by
  constructor
  · intro incl; rfl
  · intro data incl h
    have hf : validFiltered data = [] := validFiltered_eq_nil h
    unfold summarize_engine_util
    by_cases hd : data.isEmpty
    · rw [if_pos hd]
    · rw [if_neg hd, hf]
      simp

/-- C7 witness: `summarize_invalid_only` on the concrete map
`{"x": NaN, "y": -3.0}`. -/
theorem summarize_invalid_only_witness :
    (∀ p ∈ [("x", PyFloat.nan), ("y", PyFloat.val (-3))], isInvalidVal p.2 = true) ∧
    summarize_engine_util [("x", PyFloat.nan), ("y", PyFloat.val (-3))] ["Compute"] = (0, []) :=
  ⟨by decide, summarize_invalid_only.2 _ ["Compute"] (by decide)⟩

/-- C3: whenever the baseline window holds fewer than 10 samples or the
active window fewer than 5, both estimators return `None` (the
insufficient-data result, carrying no numeric estimate). -/
theorem estimator_insufficient_data :
    (∀ st : NPUUsageEstimator,
      st.cpu_baseline.length < 10 ∨ st.cpu_during_ai.length < 5 →
      estimate_npu_usage st = none) ∧
    (∀ st : OffloadEstimator,
      st.cpu_baseline.length < 10 ∨ st.cpu_during_ai.length < 5 →
      estimate_npu_offload st = none) := by
  constructor
  · intro st h
    unfold estimate_npu_usage
    rw [if_pos h]
  · intro st h
    unfold estimate_npu_offload
    rw [if_pos h]

/-- C3 witness: `estimator_insufficient_data` on empty windows. -/
theorem estimator_insufficient_data_witness :
    ((([] : List ℚ).length < 10 ∨ ([] : List ℚ).length < 5) ∧
      estimate_npu_usage ⟨[], [], []⟩ = none) ∧
    ((([] : List ℚ).length < 10 ∨ ([] : List ℚ).length < 5) ∧
      estimate_npu_offload ⟨[], []⟩ = none) :=
  ⟨⟨Or.inl (by simp), estimator_insufficient_data.1 ⟨[], [], []⟩ (Or.inl (by simp))⟩,
   ⟨Or.inl (by simp), estimator_insufficient_data.2 ⟨[], []⟩ (Or.inl (by simp))⟩⟩

lemma clampPct_nonneg (v : ℚ) : 0 ≤ clampPct v := le_max_left 0 _

lemma clampPct_le_100 (v : ℚ) : clampPct v ≤ 100 :=
  max_le (by norm_num) (min_le_left _ _)

/-- C1 counterexample: on the map `{"a": 150.0}` (a value above 100, neither
NaN nor negative) `summarize_engine_util` itself returns an overall value
and a top-list value strictly above 100 — the function does not clamp. -/
theorem summarize_can_exceed_100 :
    100 < (summarize_engine_util [("a", PyFloat.val 150)] []).1 ∧
    ∃ p ∈ (summarize_engine_util [("a", PyFloat.val 150)] []).2, 100 < p.2 := by
  have h1 : validFiltered [("a", PyFloat.val 150)] = [("a", 150)] := by decide
  have h2 : topFive [("a", (150 : ℚ))] = [("a", 150)] := by decide
  have h3 : computeCond [] = false := by decide
  constructor
  · simp only [summarize_engine_util, h1, h2, h3, List.isEmpty_cons, List.isEmpty_nil,
      Bool.false_eq_true, if_false]
    norm_num [meanOfTop]
  · refine ⟨("a", 150), ?_, by norm_num⟩
    simp [summarize_engine_util, h1, h2, h3]

/-- C1 (amended): for every input map, `summarize_engine_util` returns a
non-negative overall value and non-negative top-k values (NaN and negative
entries are dropped), and the clamped wrapper `get_gpu_usage` returns an
overall value in [0,100] and top values in [0,100]. -/
theorem summarize_nonneg_gpu_clamped :
    (∀ (data : List (String × PyFloat)) (incl : List String),
      0 ≤ (summarize_engine_util data incl).1 ∧
      ∀ p ∈ (summarize_engine_util data incl).2, 0 ≤ p.2) ∧
    ∀ (avail : Bool) (data : List (String × PyFloat)),
      (0 ≤ (get_gpu_usage avail data).1 ∧ (get_gpu_usage avail data).1 ≤ 100) ∧
      ∀ p ∈ (get_gpu_usage avail data).2, 0 ≤ p.2 ∧ p.2 ≤ 100 := by
  constructor
  · intro data incl
    unfold summarize_engine_util
    by_cases hd : data.isEmpty
    · simp [hd]
    · by_cases hf : (validFiltered data).isEmpty
      · simp [hd, hf]
      · simp only [hd, hf, Bool.false_eq_true, if_false]
        constructor
        · by_cases hc : computeCond incl
          · simp only [hc, if_true, hf, Bool.false_eq_true, if_false]
            apply pyMax_nonneg
            intro x hx
            rcases List.mem_map.mp hx with ⟨p, hp, rfl⟩
            exact validFiltered_nonneg hp
          · simp only [hc, Bool.false_eq_true, if_false]
            exact meanOfTop_nonneg fun p hp => validFiltered_nonneg (mem_topFive hp)
        · intro p hp
          exact validFiltered_nonneg (mem_topFive hp)
  · intro avail data
    unfold get_gpu_usage
    by_cases ha : avail
    · by_cases hd : data.isEmpty
      · simp [ha, hd]
      · simp only [ha, hd, Bool.not_true, Bool.false_eq_true, if_false]
        refine ⟨⟨clampPct_nonneg _, clampPct_le_100 _⟩, ?_⟩
        intro p hp
        rcases List.mem_map.mp hp with ⟨q, _, rfl⟩
        exact ⟨clampPct_nonneg _, clampPct_le_100 _⟩
    · simp [ha]

/-- C1 witness: `summarize_nonneg_gpu_clamped` at the concrete map
`{"a": 150.0}`, including the top-list membership hypothesis. -/
theorem summarize_nonneg_gpu_clamped_witness :
    (0 ≤ (summarize_engine_util [("a", PyFloat.val 150)] []).1 ∧
      ("a", (150 : ℚ)) ∈ (summarize_engine_util [("a", PyFloat.val 150)] []).2 ∧
      0 ≤ (150 : ℚ)) ∧
    (0 ≤ (get_gpu_usage true [("a", PyFloat.val 150)]).1 ∧
      (get_gpu_usage true [("a", PyFloat.val 150)]).1 ≤ 100) := by
  have hmem : ("a", (150 : ℚ)) ∈ (summarize_engine_util [("a", PyFloat.val 150)] []).2 := by
    have h1 : validFiltered [("a", PyFloat.val 150)] = [("a", 150)] := by decide
    simp [summarize_engine_util, h1, topFive, sortDescBy, insertDescBy]
  exact ⟨⟨(summarize_nonneg_gpu_clamped.1 [("a", PyFloat.val 150)] []).1,
          hmem,
          (summarize_nonneg_gpu_clamped.1 [("a", PyFloat.val 150)] []).2 _ hmem⟩,
         (summarize_nonneg_gpu_clamped.2 true [("a", PyFloat.val 150)]).1⟩

/-- C4: on the raw map `{"Compute:0":12.0, "Compute:1":45.0, "Copy:0":99.0}`
with include=["Compute"], exclude=["Copy"], `_filter_data` keeps exactly the
two Compute entries; summarizing the filtered map with include=["Compute"]
triggers the parallel-engine (max) policy, giving overall 45.0 and the
descending top list `[("Compute:1",45.0), ("Compute:0",12.0)]`. -/
theorem scenarioB_filter_and_summarize :
    filter_data ["Compute"] ["Copy"]
      [("Compute:0", PyFloat.val 12), ("Compute:1", PyFloat.val 45), ("Copy:0", PyFloat.val 99)]
      = [("Compute:0", 12), ("Compute:1", 45)] ∧
    summarize_engine_util
      (liftVals (filter_data ["Compute"] ["Copy"]
        [("Compute:0", PyFloat.val 12), ("Compute:1", PyFloat.val 45), ("Copy:0", PyFloat.val 99)]))
      ["Compute"]
      = (45, [("Compute:1", 45), ("Compute:0", 12)]) := by
  have hfd : filter_data ["Compute"] ["Copy"]
      [("Compute:0", PyFloat.val 12), ("Compute:1", PyFloat.val 45), ("Copy:0", PyFloat.val 99)]
      = [("Compute:0", 12), ("Compute:1", 45)] := by decide
  have hlift : liftVals [("Compute:0", (12 : ℚ)), ("Compute:1", 45)]
      = [("Compute:0", PyFloat.val 12), ("Compute:1", PyFloat.val 45)] := by decide
  refine ⟨hfd, ?_⟩
  rw [hfd, hlift]
  have h1 : validFiltered [("Compute:0", PyFloat.val 12), ("Compute:1", PyFloat.val 45)]
    = [("Compute:0", 12), ("Compute:1", 45)] := by decide
  have h2 : topFive [("Compute:0", (12 : ℚ)), ("Compute:1", 45)]
    = [("Compute:1", 45), ("Compute:0", 12)] := by decide
  have h3 : computeCond ["Compute"] = true := by decide
  simp only [summarize_engine_util, h1, h2, h3, List.isEmpty_cons, List.isEmpty_nil,
    Bool.false_eq_true, if_false, if_true, pyMax, List.map, List.foldl]
  norm_num [max_def]

/-- C2: with baseline window `[50,52,48,51,49,50,53,47,50,51]` (average
501/10 = 50.1) and active window `[30,32,28,31,29]` (average 30), and any
recorded AI-process counts whose mean is positive, `estimate_npu_usage`
computes efficiency 67/167 ≈ 0.401, which exceeds the threshold, and
returns estimate `min(100, (67/167)·150) = 10050/167 ≈ 60.2` with strictly
positive confidence `13400/167`. -/
theorem scenarioA_estimate (counts : List ℚ) (hc : 0 < listMean counts) :
    estimate_npu_usage
        ⟨[50, 52, 48, 51, 49, 50, 53, 47, 50, 51], [30, 32, 28, 31, 29], counts⟩
      = some ⟨10050 / 167, 13400 / 167, (67 / 167) * 100, 501 / 10, 30, listMean counts⟩ ∧
    (0.15 : ℚ) < 67 / 167 ∧
    |(67 / 167 : ℚ) - 401 / 1000| < 1 / 1000 ∧
    (10050 / 167 : ℚ) = min 100 ((67 / 167) * 150) ∧
    |(10050 / 167 : ℚ) - 301 / 5| < 1 / 10 ∧
    (0 : ℚ) < 13400 / 167 := by
  have hr : cpuReductionOf
      ⟨[50, 52, 48, 51, 49, 50, 53, 47, 50, 51], [30, 32, 28, 31, 29], counts⟩ = 67 / 167 := by
    norm_num [cpuReductionOf, listMean, max_def]
  refine ⟨?_, by norm_num, by rw [abs_sub_lt_iff]; norm_num, by norm_num [min_def],
    by rw [abs_sub_lt_iff]; norm_num, by norm_num⟩
  unfold estimate_npu_usage
  rw [if_neg (by norm_num)]
  simp only [hr]
  rw [if_neg (by norm_num [listMean])]
  rw [if_pos ⟨by norm_num, hc⟩]
  norm_num [listMean, min_def]

/-- C2 witness: `scenarioA_estimate` with the concrete AI-process count
window `[1,1,1,1,1]`. -/
theorem scenarioA_estimate_witness :
    0 < listMean [1, 1, 1, 1, 1] ∧
    estimate_npu_usage
        ⟨[50, 52, 48, 51, 49, 50, 53, 47, 50, 51], [30, 32, 28, 31, 29], [1, 1, 1, 1, 1]⟩
      = some ⟨10050 / 167, 13400 / 167, (67 / 167) * 100, 501 / 10, 30,
          listMean [1, 1, 1, 1, 1]⟩ :=
  ⟨by norm_num [listMean],
   (scenarioA_estimate [1, 1, 1, 1, 1] (by norm_num [listMean])).1⟩

lemma estimate_eq_heuristic (st : NPUUsageEstimator)
    (hb : 10 ≤ st.cpu_baseline.length) (ha : 5 ≤ st.cpu_during_ai.length)
    (hp : 0 < listMean st.cpu_baseline)
    (hth : 0.15 < cpuReductionOf st) (hcp : 0 < listMean st.ai_process_count) :
    estimate_npu_usage st = some ⟨min 100 (cpuReductionOf st * 150),
      min 100 (cpuReductionOf st * 200), cpuReductionOf st * 100,
      listMean st.cpu_baseline, listMean st.cpu_during_ai,
      listMean st.ai_process_count⟩ := by
  unfold estimate_npu_usage
  rw [if_neg (by omega), if_neg (not_le.mpr hp), if_pos ⟨hth, hcp⟩]

/-- C5: with the scale factor fixed at 150 and the threshold at 0.15 (the
constants of `estimate_npu_usage`), for two estimator states with
sufficient data, positive baseline averages and positive AI-process-count
averages, whose efficiencies `e1 ≤ e2` are both above the threshold, the
returned estimate `min(100, e·150)` for the first is at most that for the
second. -/
theorem estimate_monotone_in_efficiency
    (st1 st2 : NPUUsageEstimator)
    (hb1 : 10 ≤ st1.cpu_baseline.length) (ha1 : 5 ≤ st1.cpu_during_ai.length)
    (hb2 : 10 ≤ st2.cpu_baseline.length) (ha2 : 5 ≤ st2.cpu_during_ai.length)
    (hp1 : 0 < listMean st1.cpu_baseline) (hp2 : 0 < listMean st2.cpu_baseline)
    (hcp1 : 0 < listMean st1.ai_process_count) (hcp2 : 0 < listMean st2.ai_process_count)
    (hth : 0.15 < cpuReductionOf st1)
    (hle : cpuReductionOf st1 ≤ cpuReductionOf st2) :
    ∃ r1 r2 : NpuEstimate,
      estimate_npu_usage st1 = some r1 ∧ estimate_npu_usage st2 = some r2 ∧
      r1.npu_usage_estimate ≤ r2.npu_usage_estimate := by
  refine ⟨_, _, estimate_eq_heuristic st1 hb1 ha1 hp1 hth hcp1,
    estimate_eq_heuristic st2 hb2 ha2 hp2 (lt_of_lt_of_le hth hle) hcp2, ?_⟩
  exact min_le_min le_rfl (mul_le_mul_of_nonneg_right hle (by norm_num))

/-- C5 witness: `estimate_monotone_in_efficiency` on two concrete states
with efficiencies 0.3 and 0.5. -/
theorem estimate_monotone_in_efficiency_witness :
    0.15 < cpuReductionOf
      ⟨[100, 100, 100, 100, 100, 100, 100, 100, 100, 100], [70, 70, 70, 70, 70],
        [1, 1, 1, 1, 1]⟩ ∧
    cpuReductionOf
        ⟨[100, 100, 100, 100, 100, 100, 100, 100, 100, 100], [70, 70, 70, 70, 70],
          [1, 1, 1, 1, 1]⟩
      ≤ cpuReductionOf
        ⟨[100, 100, 100, 100, 100, 100, 100, 100, 100, 100], [50, 50, 50, 50, 50],
          [1, 1, 1, 1, 1]⟩ ∧
    ∃ r1 r2 : NpuEstimate,
      estimate_npu_usage
          ⟨[100, 100, 100, 100, 100, 100, 100, 100, 100, 100], [70, 70, 70, 70, 70],
            [1, 1, 1, 1, 1]⟩ = some r1 ∧
      estimate_npu_usage
          ⟨[100, 100, 100, 100, 100, 100, 100, 100, 100, 100], [50, 50, 50, 50, 50],
            [1, 1, 1, 1, 1]⟩ = some r2 ∧
      r1.npu_usage_estimate ≤ r2.npu_usage_estimate := by
  refine ⟨by norm_num [cpuReductionOf, listMean, max_def],
    by norm_num [cpuReductionOf, listMean, max_def], ?_⟩
  exact estimate_monotone_in_efficiency _ _
    (by norm_num) (by norm_num) (by norm_num) (by norm_num)
    (by norm_num [listMean]) (by norm_num [listMean])
    (by norm_num [listMean]) (by norm_num [listMean])
    (by norm_num [cpuReductionOf, listMean, max_def])
    (by norm_num [cpuReductionOf, listMean, max_def])

/-- C10: the max-of-filtered-values policy fires exactly when some include
keyword, lowercased, equals `compute` or `engtype_compute`; otherwise
(including `["3D"]`, `["Compute Engine"]` and the empty include list) the
overall value is the mean of the at-most-5 top values.  The concrete map
`{A:10, B:40, X:1, Y:2, Z:3, W:4}` discriminates the two policies:
mean-of-top gives 59/5 = 11.8 while max gives 40. -/
theorem overall_policy_characterization :
    (∀ (data : List (String × PyFloat)) (incl : List String),
      computeCond incl = false →
      summarize_engine_util data incl
        = (meanOfTop (topFive (validFiltered data)), topFive (validFiltered data))) ∧
    (∀ (data : List (String × PyFloat)) (incl : List String),
      computeCond incl = true → validFiltered data ≠ [] →
      summarize_engine_util data incl
        = (pyMax ((validFiltered data).map fun p => p.2), topFive (validFiltered data))) ∧
    computeCond ["3D"] = false ∧ computeCond ["Compute Engine"] = false ∧
    computeCond [] = false ∧ computeCond ["Compute"] = true ∧
    computeCond ["ENGTYPE_Compute"] = true ∧
    (summarize_engine_util
      [("A", PyFloat.val 10), ("B", PyFloat.val 40), ("X", PyFloat.val 1),
       ("Y", PyFloat.val 2), ("Z", PyFloat.val 3), ("W", PyFloat.val 4)] ["3D"]).1 = 59 / 5 ∧
    (summarize_engine_util
      [("A", PyFloat.val 10), ("B", PyFloat.val 40), ("X", PyFloat.val 1),
       ("Y", PyFloat.val 2), ("Z", PyFloat.val 3), ("W", PyFloat.val 4)]
      ["Compute Engine"]).1 = 59 / 5 ∧
    (summarize_engine_util
      [("A", PyFloat.val 10), ("B", PyFloat.val 40), ("X", PyFloat.val 1),
       ("Y", PyFloat.val 2), ("Z", PyFloat.val 3), ("W", PyFloat.val 4)] []).1 = 59 / 5 ∧
    (summarize_engine_util
      [("A", PyFloat.val 10), ("B", PyFloat.val 40), ("X", PyFloat.val 1),
       ("Y", PyFloat.val 2), ("Z", PyFloat.val 3), ("W", PyFloat.val 4)] ["Compute"]).1 = 40 ∧
    (59 / 5 : ℚ) ≠ 40 := by
  have hvf : validFiltered
      [("A", PyFloat.val 10), ("B", PyFloat.val 40), ("X", PyFloat.val 1),
       ("Y", PyFloat.val 2), ("Z", PyFloat.val 3), ("W", PyFloat.val 4)]
      = [("A", 10), ("B", 40), ("X", 1), ("Y", 2), ("Z", 3), ("W", 4)] := by decide
  have htop : topFive [("A", (10 : ℚ)), ("B", 40), ("X", 1), ("Y", 2), ("Z", 3), ("W", 4)]
      = [("B", 40), ("A", 10), ("W", 4), ("Z", 3), ("Y", 2)] := by decide
  have hgen1 : ∀ (data : List (String × PyFloat)) (incl : List String),
      computeCond incl = false →
      summarize_engine_util data incl
        = (meanOfTop (topFive (validFiltered data)), topFive (validFiltered data)) := by
    intro data incl hc
    unfold summarize_engine_util
    by_cases hd : data.isEmpty
    · have hdata : data = [] := List.isEmpty_iff.mp hd
      subst hdata
      rfl
    · by_cases hf : (validFiltered data).isEmpty
      · have hfil : validFiltered data = [] := List.isEmpty_iff.mp hf
        rw [if_neg (by simp [hd]), if_pos hf, hfil]
        rfl
      · rw [if_neg (by simp [hd]), if_neg (by simp [hf]), hc]
        simp
  have hgen2 : ∀ (data : List (String × PyFloat)) (incl : List String),
      computeCond incl = true → validFiltered data ≠ [] →
      summarize_engine_util data incl
        = (pyMax ((validFiltered data).map fun p => p.2), topFive (validFiltered data)) := by
    intro data incl hc hf
    have hd : ¬ data.isEmpty := by
      intro hd
      exact hf (by rw [List.isEmpty_iff.mp hd]; rfl)
    have hf' : ¬ (validFiltered data).isEmpty := by
      intro h
      exact hf (List.isEmpty_iff.mp h)
    unfold summarize_engine_util
    rw [if_neg (by simp [hd]), if_neg (by simp [hf']), hc]
    simp [hf']
  refine ⟨hgen1, hgen2, by decide, by decide, by decide, by decide, by decide, ?_, ?_, ?_, ?_,
    by norm_num⟩
  · rw [hgen1 _ _ (by decide), hvf, htop]
    norm_num [meanOfTop]
  · rw [hgen1 _ _ (by decide), hvf, htop]
    norm_num [meanOfTop]
  · rw [hgen1 _ _ (by decide), hvf, htop]
    norm_num [meanOfTop]
  · rw [hgen2 _ _ (by decide) (by rw [hvf]; simp), hvf]
    norm_num [pyMax, max_def]

/-- C10 witness: the two policy clauses of
`overall_policy_characterization` applied to the concrete map
`{"A": 10.0}` with include lists `["3D"]` and `["Compute"]`. -/
theorem overall_policy_characterization_witness :
    computeCond ["3D"] = false ∧
    summarize_engine_util [("A", PyFloat.val 10)] ["3D"]
      = (meanOfTop (topFive (validFiltered [("A", PyFloat.val 10)])),
         topFive (validFiltered [("A", PyFloat.val 10)])) ∧
    computeCond ["Compute"] = true ∧ validFiltered [("A", PyFloat.val 10)] ≠ [] ∧
    summarize_engine_util [("A", PyFloat.val 10)] ["Compute"]
      = (pyMax ((validFiltered [("A", PyFloat.val 10)]).map fun p => p.2),
         topFive (validFiltered [("A", PyFloat.val 10)])) :=
  ⟨by decide, overall_policy_characterization.1 _ _ (by decide), by decide, by decide,
   overall_policy_characterization.2.1 _ _ (by decide) (by decide)⟩

/-- C8: if pattern expansion yields zero paths, or every per-path attach
fails, `_try_build` leaves the collector unavailable; every `collect()` on
an unavailable collector returns the empty map performing no PDH call at
all; no `collect()` ever re-expands the pattern; and a per-path attach
failure is non-fatal when at least one attach succeeds (with the query
opened and the priming collection succeeding). -/
theorem pdh_unavailable_session_behavior :
    (∀ env : PdhBuildEnv, env.expandResult = some [] →
      (pdhTryBuild env).1.available = false) ∧
    (∀ (env : PdhBuildEnv) (paths : List String), env.expandResult = some paths →
      (∀ p ∈ paths, env.addCounterOk p = false) →
      (pdhTryBuild env).1.available = false) ∧
    (∀ (st : PdhState) (senv : PdhSampleEnv) (incl excl : List String),
      st.available = false → pdhCollect st senv incl excl = ([], [])) ∧
    (∀ (st : PdhState) (senv : PdhSampleEnv) (incl excl : List String),
      PdhCall.expandPath ∉ (pdhCollect st senv incl excl).2) ∧
    (∀ (env : PdhBuildEnv) (paths : List String),
      env.hasPdh = true → env.openQueryOk = true → env.collectDataOk = true →
      env.expandResult = some paths →
      (∃ p ∈ paths, env.addCounterOk p = false) →
      (∃ p ∈ paths, env.addCounterOk p = true) →
      (pdhTryBuild env).1.available = true) := by
  refine ⟨?_, ?_, ?_, ?_, ?_⟩
  · intro env h
    unfold pdhTryBuild
    by_cases hp : env.hasPdh
    · rw [h]; simp [hp]
    · simp [hp]
  · intro env paths h hall
    have hfil : paths.filter env.addCounterOk = [] := by
      apply List.filter_eq_nil_iff.mpr
      intro p hp
      simp [hall p hp]
    unfold pdhTryBuild
    by_cases hp : env.hasPdh
    · rw [h]
      by_cases hnil : paths.isEmpty
      · simp [hp, hnil]
      · by_cases hoq : env.openQueryOk
        · simp [hp, hnil, hoq, hfil]
        · simp [hp, hnil, hoq]
    · simp [hp]
  · intro st senv incl excl h
    unfold pdhCollect
    rw [h]
    simp
  · intro st senv incl excl
    unfold pdhCollect
    by_cases ha : st.available
    · by_cases hc : senv.collectDataOk
      · simp [ha, hc, List.mem_cons, List.mem_map]
      · simp [ha, hc]
    · simp [ha]
  · intro env paths hpd hoq hcd hexp hfail hsucc
    rcases hsucc with ⟨p, hpmem, hpok⟩
    have hne : ¬ paths.isEmpty := by
      intro h
      rw [List.isEmpty_iff.mp h] at hpmem
      simp at hpmem
    have hfil : ¬ (paths.filter env.addCounterOk).isEmpty := by
      intro h
      have : p ∈ paths.filter env.addCounterOk := List.mem_filter.mpr ⟨hpmem, hpok⟩
      rw [List.isEmpty_iff.mp h] at this
      simp at this
    unfold pdhTryBuild
    rw [hexp]
    simp [hpd, hoq, hcd, hne, hfil]

/-- C8 witness: `pdh_unavailable_session_behavior` at concrete
environments — empty expansion, all-attaches-fail, an unavailable
collector's `collect`, the no-re-expansion clause, and a mixed
attach-success environment. -/
theorem pdh_unavailable_session_behavior_witness :
    ((PdhBuildEnv.mk true (some []) true (fun _ => true) true).expandResult = some [] ∧
      (pdhTryBuild (PdhBuildEnv.mk true (some []) true (fun _ => true) true)).1.available
        = false) ∧
    ((∀ p ∈ ["a", "b"], (fun (_ : String) => false) p = false) ∧
      (pdhTryBuild (PdhBuildEnv.mk true (some ["a", "b"]) true (fun _ => false) true)).1.available
        = false) ∧
    pdhCollect ⟨false, ["a"]⟩ ⟨true, fun _ => none⟩ [] [] = ([], []) ∧
    PdhCall.expandPath ∉ (pdhCollect ⟨true, ["a"]⟩ ⟨true, fun _ => none⟩ [] []).2 ∧
    ((∃ p ∈ ["a", "b"], (fun s => s == "b") p = false) ∧
      (∃ p ∈ ["a", "b"], (fun s => s == "b") p = true) ∧
      (pdhTryBuild
        (PdhBuildEnv.mk true (some ["a", "b"]) true (fun s => s == "b") true)).1.available
        = true) :=
  ⟨⟨rfl, pdh_unavailable_session_behavior.1 _ rfl⟩,
   ⟨by decide, pdh_unavailable_session_behavior.2.1 _ ["a", "b"] rfl (by decide)⟩,
   pdh_unavailable_session_behavior.2.2.1 _ _ [] [] rfl,
   pdh_unavailable_session_behavior.2.2.2.1 ⟨true, ["a"]⟩ ⟨true, fun _ => none⟩ [] [],
   ⟨⟨"a", by decide⟩, ⟨"b", by decide⟩,
    pdh_unavailable_session_behavior.2.2.2.2 _ ["a", "b"] rfl rfl rfl rfl
      ⟨"a", by decide⟩ ⟨"b", by decide⟩⟩⟩

lemma findIdx_eq_of_first (l : List Char) (c : Char) :
    ∀ i : ℕ, l.get? i = some c → (∀ k, k < i → l.get? k ≠ some c) →
      l.findIdx (fun x => x == c) = i := by
  induction l with
  | nil => intro i hi _; simp at hi
  | cons a t ih =>
    intro i hi hfirst
    cases i with
    | zero =>
      simp only [List.get?_cons_zero, Option.some.injEq] at hi
      rw [List.findIdx_cons]
      simp [hi]
    | succ m =>
      have ha : ¬ (a = c) := by
        intro h
        exact hfirst 0 (Nat.succ_pos m) (by simp [h])
      have hb : (a == c) = false := by simp [ha]
      rw [List.findIdx_cons, hb]
      have ht := ih m (by simpa using hi) (fun k hk => by
        have := hfirst (k + 1) (Nat.succ_lt_succ hk)
        simpa using this)
      simp [ht]

lemma instLabel_eq_take_drop (p : List Char) (i j : ℕ)
    (hi : p.get? i = some '(') (hfi : ∀ k, k < i → p.get? k ≠ some '(')
    (hj : p.get? j = some ')') (hfj : ∀ k, k < j → p.get? k ≠ some ')') :
    instLabel p = (p.take j).drop (i + 1) := by
  have hmemi : '(' ∈ p := List.get?_mem hi
  have hmemj : ')' ∈ p := List.get?_mem hj
  have hilen : i < p.length := (List.get?_eq_some.mp hi).1
  have hjlen : j < p.length := (List.get?_eq_some.mp hj).1
  have e1 : pyStrFind p '(' = (i : Int) := by
    unfold pyStrFind
    rw [if_pos hmemi, findIdx_eq_of_first p '(' i hi hfi]
  have e2 : pyStrFind p ')' = (j : Int) := by
    unfold pyStrFind
    rw [if_pos hmemj, findIdx_eq_of_first p ')' j hj hfj]
  have b1 : pySliceBound p.length ((i : Int) + 1) = i + 1 := by
    unfold pySliceBound
    rw [if_neg (by omega)]
    have h1 : ((i : Int) + 1).toNat = i + 1 := by omega
    rw [h1, min_eq_left (by omega)]
  have b2 : pySliceBound p.length (j : Int) = j := by
    unfold pySliceBound
    rw [if_neg (by omega)]
    have h1 : ((j : Int)).toNat = j := by omega
    rw [h1, min_eq_left (by omega)]
  unfold instLabel
  rw [if_pos ⟨hmemi, hmemj⟩, e1, e2]
  unfold pySlice
  rw [b1, b2]

/-- C9: when a counter path contains both `(` and `)` (first occurrences at
positions `i` and `j`), the extracted instance label consists of exactly
the characters strictly between those two positions (so it has length
`j - (i+1)`, and its `k`-th character is the path's `(i+1+k)`-th); when the
path lacks one of the parentheses, the label is the full path. -/
theorem instLabel_between_first_parens (p : List Char) :
    (∀ i j : ℕ,
      p.get? i = some '(' → (∀ k, k < i → p.get? k ≠ some '(') →
      p.get? j = some ')' → (∀ k, k < j → p.get? k ≠ some ')') →
      (instLabel p).length = j - (i + 1) ∧
      ∀ k, k < j - (i + 1) → (instLabel p).get? k = p.get? (i + 1 + k)) ∧
    (¬ ('(' ∈ p ∧ ')' ∈ p) → instLabel p = p) := by
  constructor
  · intro i j hi hfi hj hfj
    have hjlen : j < p.length := (List.get?_eq_some.mp hj).1
    rw [instLabel_eq_take_drop p i j hi hfi hj hfj]
    constructor
    · rw [List.length_drop, List.length_take]
      omega
    · intro k hk
      rw [List.get?_drop, List.get?_take (by omega : i + 1 + k < j)]
  · intro h
    unfold instLabel
    rw [if_neg h]

/-- C9 witness: `instLabel_between_first_parens` on the concrete path
`a(bc)d` (first parens at positions 1 and 4) and on the paren-free path
`xyz`. -/
theorem instLabel_between_first_parens_witness :
    (("a(bc)d".data.get? 1 = some '(' ∧ (∀ k, k < 1 → "a(bc)d".data.get? k ≠ some '(') ∧
      "a(bc)d".data.get? 4 = some ')' ∧ (∀ k, k < 4 → "a(bc)d".data.get? k ≠ some ')')) ∧
      (instLabel "a(bc)d".data).length = 4 - (1 + 1) ∧
      (instLabel "a(bc)d".data).get? 0 = "a(bc)d".data.get? (1 + 1 + 0)) ∧
    (¬ ('(' ∈ "xyz".data ∧ ')' ∈ "xyz".data) ∧ instLabel "xyz".data = "xyz".data) := by
  have h := (instLabel_between_first_parens "a(bc)d".data).1 1 4
    (by decide) (by decide) (by decide) (by decide)
  exact ⟨⟨⟨by decide, by decide, by decide, by decide⟩, h.1, h.2 0 (by decide)⟩,
    ⟨by decide, (instLabel_between_first_parens "xyz".data).2 (by decide)⟩⟩
